import Mathlib

/-!
Verification development for the Betterbox directory-synchronization
program (Go): a client mirrors a local directory to a server over RPC.
The definitions below are a shallow embedding of the Go source:
`validateRequest` / `ApplyRequest` from the server package,
`sendRequests` / `Sync` / `handleEvent` / the watcher loop from the
client package, and the argument checks of the two `main` functions.
File contents are modelled as `List Nat` (bytes), filesystem paths as
lists of segments, and the destination tree as a finite map from
segment paths to nodes.  External collaborators (the RPC transport,
`fsnotify`, file reads) are passed in as explicit oracles.
-/

/-- Modelled from the spec: the message-model source file (request/response
type declarations and their constants) is not part of the provided sources;
the spec defines three request kinds and two response statuses.  Following
Go convention the tags are small integers with the first constant equal to
the integer zero value.  Request kind: MakeDirectory. -/
def requestMkdir : Nat := 0

/-- Modelled from the spec: request kind PutFile (file creation/write). -/
def requestCreate : Nat := 1

/-- Modelled from the spec: request kind Remove. -/
def requestRemove : Nat := 2

/-- Modelled from the spec: response status Ok.  It is the first constant,
hence equal to the Go zero value of the status field. -/
def responseOk : Nat := 0

/-- Modelled from the spec: response status Error. -/
def responseErr : Nat := 1

/-- One filesystem mutation intent (Go struct `Request` with fields
`Type`, `Path`, `Data`).  `data` is the raw payload bytes. -/
structure Request where
  type : Nat
  path : String
  data : List Nat
deriving DecidableEq, Repr

/-- Result of applying one request (Go struct `Response` with fields
`Type`, `Message`). -/
structure Response where
  type : Nat
  message : String
deriving DecidableEq, Repr

/-- Rendering of a request used in error messages (Go prints the request
with the fmt package; only the fact that the message names the request
matters here). -/
def reqString (req : Request) : String :=
  "Request type " ++ toString req.type ++ " path " ++ req.path

/-- Splits a character list on the separator, mirroring Go path-element
splitting (`String.splitOn "/"` restated structurally so that it reduces
definitionally). -/
def splitSegsAux : List Char → List Char → List String
  | [], acc => [String.mk acc.reverse]
  | c :: cs, acc =>
    if c = '/' then String.mk acc.reverse :: splitSegsAux cs []
    else splitSegsAux cs (c :: acc)

/-- Splits a string into its slash-separated segments. -/
def splitSegs (s : String) : List String :=
  splitSegsAux s.toList []

/-- Joins segments with the slash separator. -/
def joinSegs : List String → String
  | [] => ""
  | [s] => s
  | s :: rest => s ++ "/" ++ joinSegs rest

/-- Whether the path string begins with the separator (Go `path[0] == '/'`
inside `filepath.Clean`). -/
def isRooted (s : String) : Bool :=
  match s.toList with
  | c :: _ => c = '/'
  | [] => false

/-- Core of Go `path/filepath.Clean` (unix rules), on segments.  The
accumulator holds the output elements in reverse order.  Empty and `.`
elements are dropped; a `..` element removes the preceding non-`..`
element, is dropped at the root of a rooted path, and is kept otherwise.
This mirrors the `out.w > dotdot` bookkeeping of the Go source: the
accumulator head is `..` exactly when no poppable element follows the
leading `..` run. -/
def cleanSegsAux (rooted : Bool) : List String → List String → List String
  | acc, [] => acc.reverse
  | acc, seg :: rest =>
    if seg = "" ∨ seg = "." then cleanSegsAux rooted acc rest
    else if seg = ".." then
      match acc with
      | top :: acc2 =>
        if top = ".." then cleanSegsAux rooted (seg :: acc) rest
        else cleanSegsAux rooted acc2 rest
      | [] =>
        if rooted then cleanSegsAux rooted [] rest
        else cleanSegsAux rooted [seg] rest
    else cleanSegsAux rooted (seg :: acc) rest

/-- Embedding of Go `path/filepath.Clean` (unix): lexical shortest
equivalent path.  Returns `.` for the empty relative result and keeps a
leading separator for rooted paths. -/
def filepathClean (path : String) : String :=
  if path = "" then "."
  else
    let rooted := isRooted path
    let out := cleanSegsAux rooted [] (splitSegs path)
    if rooted then "/" ++ joinSegs out
    else if out = [] then "." else joinSegs out

/-- Embedding of `Server.validateRequest`: rejects an empty path and a
path that differs from its own `filepath.Clean` form; `none` means the
request is accepted (the Go function returns a nil error), `some msg`
carries the error message.  The Go source performs no further check (in
particular none for a leading separator). -/
def validateRequest (req : Request) : Option String :=
  if req.path = "" then some "Missing request path"
  else if req.path ≠ filepathClean req.path then
    some ("Erroneous path value: " ++ req.path)
  else none

/-- A destination-tree node: a regular file with its byte content, or a
directory. -/
inductive Node where
  | file (data : List Nat)
  | dir
deriving DecidableEq, Repr

/-- A path below the server root, as a list of segments. -/
abbrev FsPath := List String

/-- The destination tree, as a finite map from relative segment paths to
nodes (the root itself always exists and is a directory; it has no
entry). -/
abbrev Fs := List (FsPath × Node)

/-- Whether `p` is a (not necessarily proper) segmentwise ancestor-or-self
of `q`. -/
def pathUnder : FsPath → FsPath → Bool
  | [], _ => true
  | _ :: _, [] => false
  | a :: as, b :: bs => if a = b then pathUnder as bs else false

/-- Looks up the node stored at a path. -/
def fsLookup (fs : Fs) (p : FsPath) : Option Node :=
  match fs with
  | [] => none
  | (q, n) :: rest => if q = p then some n else fsLookup rest p

/-- Whether the parent directory of `p` exists (the empty parent is the
server root, which always exists). -/
def parentOk (fs : Fs) (p : FsPath) : Bool :=
  if p.dropLast = [] then true
  else decide (fsLookup fs p.dropLast = some Node.dir)

/-- Embedding of `os.Mkdir` at `root/p`: fails if something already
exists at `p` or the parent directory is missing; otherwise records an
empty directory. -/
def fsMkdir (fs : Fs) (p : FsPath) : Except String Fs :=
  if (fsLookup fs p).isSome then .error "mkdir: file exists"
  else if parentOk fs p then .ok ((p, Node.dir) :: fs)
  else .error "mkdir: no such file or directory"

/-- Embedding of `ioutil.WriteFile` at `root/p`: creates or truncates the
file; fails if the parent directory is missing or a directory sits at
`p`. -/
def fsWriteFile (fs : Fs) (p : FsPath) (data : List Nat) : Except String Fs :=
  if parentOk fs p then
    match fsLookup fs p with
    | some Node.dir => .error "open: is a directory"
    | _ => .ok ((p, Node.file data) :: fs.filter (fun e => !(decide (e.1 = p))))
  else .error "open: no such file or directory"

/-- Embedding of `os.RemoveAll` at `root/p`: removes whatever exists at
`p`, recursively; a no-op when nothing is there. -/
def fsRemoveAll (fs : Fs) (p : FsPath) : Fs :=
  fs.filter (fun e => !(pathUnder p e.1))

/-- Embedding of `Server.ApplyRequest`: validates the path, then
dispatches on the request kind exactly as the Go switch does (`Mkdir`,
`WriteFile`, `RemoveAll`, default error naming the request).  Returns the
new tree and the response.  The Go method itself always returns a nil
error — a request never aborts the server process — which is captured by
this being a total function into a pair. -/
def ApplyRequest (fs : Fs) (req : Request) : Fs × Response :=
  match validateRequest req with
  | some msg => (fs, ⟨responseErr, msg⟩)
  | none =>
    let p := splitSegs req.path
    let r : Except String Fs :=
      if req.type = requestMkdir then fsMkdir fs p
      else if req.type = requestCreate then fsWriteFile fs p req.data
      else if req.type = requestRemove then .ok (fsRemoveAll fs p)
      else .error ("Unhandled request: " ++ reqString req)
    match r with
    | .ok fs2 => (fs2, ⟨responseOk, ""⟩)
    | .error e => (fs, ⟨responseErr, e⟩)

/-- Applies a list of requests in order, collecting the responses (the
server drains one connection synchronously, one request at a time). -/
def applyAll (fs : Fs) : List Request → Fs × List Response
  | [] => (fs, [])
  | r :: rs =>
    let out := ApplyRequest fs r
    let rest := applyAll out.1 rs
    (rest.1, out.2 :: rest.2)

/-- The RPC transport as an oracle: whether `serverConnect` succeeds, and
what each `Server.ApplyRequest` call yields — `some resp` when a response
arrives, `none` when the call itself fails (connection lost mid-flush). -/
structure Transport where
  connectOk : Bool
  call : Request → Option Response

/-- The Go zero value of `Response` (`var resp Response`): status is the
integer zero, which is `responseOk`, and an empty message. -/
def zeroResponse : Response := ⟨0, ""⟩

/-- The response variable observed after `rconn.Call(..., req, &resp)`:
the Go source discards the call's error return, so on a failed call the
variable keeps its zero value. -/
def callOutcome (t : Transport) (req : Request) : Response :=
  match t.call req with
  | some r => r
  | none => zeroResponse

/-- The per-request loop of `Client.sendRequests`: stop with an error on
the first response whose status is `responseErr`, otherwise continue. -/
def sendLoop (t : Transport) : List Request → Except String Unit
  | [] => .ok ()
  | req :: rest =>
    let resp := callOutcome t req
    if resp.type = responseErr then
      .error ("Sending request to server failed: " ++ reqString req ++ ": " ++ resp.message)
    else sendLoop t rest

/-- Embedding of `Client.sendRequests`: an empty batch returns nil
immediately, before `serverConnect`; otherwise one connection is opened
(failure to connect is an error) and the requests are sent in order. -/
def sendRequests (t : Transport) (reqs : List Request) : Except String Unit :=
  if reqs = [] then .ok ()
  else if t.connectOk then sendLoop t reqs
  else .error "Connection to server failed"

/-- Fixed batch-size bound `requestsBufferSize` from the client source. -/
def requestsBufferSize : Nat := 100

/-- The batch accumulator of `Client.Sync`: requests emitted by the walk
are appended to the buffer, which is flushed exactly when its length
reaches `requestsBufferSize`; after the walk the remaining buffer is
passed to `sendRequests` (which opens no connection when it is empty).
Returns the successive non-empty flushed batches. -/
def syncBatchesAux : List Request → List Request → List (List Request)
  | acc, [] => if acc = [] then [] else [acc]
  | acc, r :: rs =>
    let acc2 := acc ++ [r]
    if acc2.length = requestsBufferSize then acc2 :: syncBatchesAux [] rs
    else syncBatchesAux acc2 rs

/-- The sequence of flush operations `Client.Sync` performs for a given
ordered sequence of walk-emitted requests. -/
def syncBatches (reqs : List Request) : List (List Request) :=
  syncBatchesAux [] reqs

/-- Embedding of `Client.Sync` restricted to its delivery behaviour: the
walk-emitted requests are given as a list, each full batch is sent as it
fills, and the remainder is sent after the walk. -/
def Sync (t : Transport) (reqs : List Request) : Except String Unit :=
  (syncBatches reqs).foldlM (fun _ b => sendRequests t b) ()

/-- The lengths of the successive flushed batches, as a function of the
buffer fill and the number of requests still to emit. -/
def batchSizes : Nat → Nat → List Nat
  | a, 0 => if a = 0 then [] else [a]
  | a, n + 1 =>
    if a + 1 = requestsBufferSize then requestsBufferSize :: batchSizes 0 n
    else batchSizes (a + 1) n

/-- fsnotify operation bit for Create (external collaborator constants,
fsnotify v1). -/
def fsnotifyCreate : Nat := 1

/-- fsnotify operation bit for Write. -/
def fsnotifyWrite : Nat := 2

/-- fsnotify operation bit for Remove. -/
def fsnotifyRemove : Nat := 4

/-- fsnotify operation bit for Rename. -/
def fsnotifyRename : Nat := 8

/-- fsnotify operation bit for Chmod. -/
def fsnotifyChmod : Nat := 16

/-- One fsnotify event: an operation bitmask and the absolute name it
concerns. -/
structure Event where
  op : Nat
  name : String

/-- Go `event.Op&flag == flag`. -/
def hasOp (ev : Event) (flag : Nat) : Bool :=
  decide (ev.op &&& flag = flag)

/-- The client-side external collaborators used by event handling, as
oracles: `filepath.Rel` from the client root, `isDirectory`,
`ioutil.ReadFile`, and `recursiveAddWatchers`. -/
structure EventDeps where
  rel : String → Except String String
  isDirectory : String → Bool
  readFile : String → Except String (List Nat)
  addWatchers : String → Except String Unit

/-- Embedding of `newCreateRequest`: reads the file content eagerly; a
failed read is an error and no request is produced. -/
def newCreateRequest (d : EventDeps) (path name : String) : Except String Request :=
  match d.readFile path with
  | .error e => .error e
  | .ok content => .ok ⟨requestCreate, name, content⟩

/-- Embedding of `Client.handleEvent`: translates one fsnotify event to
at most one request, testing the operation bits in the source's order
(Create, Remove, Rename, Write, Chmod); `ok none` is the Chmod case, and
an unknown operation is an error. -/
def handleEvent (d : EventDeps) (ev : Event) : Except String (Option Request) :=
  match d.rel ev.name with
  | .error e => .error e
  | .ok relPath =>
    if hasOp ev fsnotifyCreate then
      if d.isDirectory ev.name then
        match d.addWatchers ev.name with
        | .error e => .error e
        | .ok _ => .ok (some ⟨requestMkdir, relPath, []⟩)
      else
        match newCreateRequest d ev.name relPath with
        | .error e => .error e
        | .ok req => .ok (some req)
    else if hasOp ev fsnotifyRemove then .ok (some ⟨requestRemove, relPath, []⟩)
    else if hasOp ev fsnotifyRename then .ok (some ⟨requestRemove, relPath, []⟩)
    else if hasOp ev fsnotifyWrite then
      match newCreateRequest d ev.name relPath with
      | .error e => .error e
      | .ok req => .ok (some req)
    else if hasOp ev fsnotifyChmod then .ok none
    else .error ("Erroneous event value: " ++ ev.name)

/-- Embedding of the events branch of `Client.watcherLoop` over the
finite sequence of events the channel delivers before closing: each
event is translated (a translation error, wrapped, terminates the
session), a produced request is appended to the buffer, and the buffer
is flushed when it reaches `requestsBufferSize` (a flush error also
terminates).  Channel close returns nil with the pending buffer dropped.
The quiescence-timer branch involves real time and is not modelled. -/
def watcherLoop (d : EventDeps) (t : Transport) : List Event → List Request → Except String Unit
  | [], _ => .ok ()
  | ev :: evs, reqs =>
    match handleEvent d ev with
    | .error e => .error ("Handling file event failed: " ++ e)
    | .ok r =>
      let reqs2 := match r with
        | some req => reqs ++ [req]
        | none => reqs
      if reqs2.length = requestsBufferSize then
        match sendRequests t reqs2 with
        | .error e => .error e
        | .ok _ => watcherLoop d t evs []
      else watcherLoop d t evs reqs2

/-- Embedding of the argument check in `cmd/client/main.go`: on an empty
directory, an empty address, or a port outside 1–65535 the process
prints the flag defaults and exits; `some c` is the exit status used,
`none` means the arguments are accepted.  The source calls
`os.Exit(0)`. -/
def clientArgsExit (directory address : String) (port : Int) : Option Nat :=
  if directory = "" ∨ address = "" ∨ port > 65535 ∨ port ≤ 0 then some 0 else none

/-- Embedding of the argument check in `cmd/server/main.go`: same
predicate as the client, but the source calls `os.Exit(1)`. -/
def serverArgsExit (directory address : String) (port : Int) : Option Nat :=
  if directory = "" ∨ address = "" ∨ port > 65535 ∨ port ≤ 0 then some 1 else none


/-- Concatenating the flushed batches recovers the emitted requests in
order, whatever the buffer already holds. -/
theorem syncBatchesAux_flatten (rs : List Request) :
    ∀ acc : List Request, (syncBatchesAux acc rs).flatten = acc ++ rs := by
  induction rs with
  | nil =>
    intro acc
    by_cases h : acc = [] <;> simp [syncBatchesAux, h]
  | cons r rs ih =>
    intro acc
    by_cases h : acc.length + 1 = requestsBufferSize
    · have h2 : (acc ++ [r]).length = requestsBufferSize := by simpa using h
      simp [syncBatchesAux, h2, h, ih]
    · have h2 : ¬ (acc ++ [r]).length = requestsBufferSize := by simpa using h
      simp [syncBatchesAux, h2, h, ih]

/-- The lengths of the flushed batches depend only on the buffer fill and
the number of requests still to emit. -/
theorem syncBatchesAux_map_length (rs : List Request) :
    ∀ acc : List Request,
      (syncBatchesAux acc rs).map List.length = batchSizes acc.length rs.length := by
  induction rs with
  | nil =>
    intro acc
    by_cases h : acc = []
    · subst h; rfl
    · have hlen : acc.length ≠ 0 := by simpa using h
      simp [syncBatchesAux, batchSizes, h, hlen]
  | cons r rs ih =>
    intro acc
    have hlen : (acc ++ [r]).length = acc.length + 1 := by simp
    by_cases h : acc.length + 1 = requestsBufferSize
    · have h2 : (acc ++ [r]).length = requestsBufferSize := by rw [hlen, h]
      simp [syncBatchesAux, batchSizes, h2, h, ih, hlen]
    · have h2 : ¬ (acc ++ [r]).length = requestsBufferSize := by rw [hlen]; exact h
      simp [syncBatchesAux, batchSizes, h2, h, ih, hlen]

/-- Everything at or below a removed path is gone after `fsRemoveAll`. -/
theorem fsLookup_fsRemoveAll_under (p q : FsPath) (h : pathUnder p q = true) :
    ∀ fs : Fs, fsLookup (fsRemoveAll fs p) q = none := by
  intro fs
  induction fs with
  | nil => rfl
  | cons e rest ih =>
    rcases e with ⟨k, n⟩
    by_cases hk : pathUnder p k = true
    · simpa [fsRemoveAll, List.filter_cons, hk] using ih
    · have hne : k ≠ q := by
        intro he
        rw [he, h] at hk
        exact hk rfl
      simp only [fsRemoveAll, List.filter_cons] at *
      simp only [hk, Bool.not_eq_true] at *
      simpa [fsLookup, hne] using ih

/-- `fsRemoveAll` is a no-op when nothing lies at or below the removed
path. -/
theorem fsRemoveAll_noop (p : FsPath) :
    ∀ fs : Fs, (∀ e ∈ fs, pathUnder p e.1 = false) → fsRemoveAll fs p = fs := by
  intro fs
  induction fs with
  | nil => intro _; rfl
  | cons e rest ih =>
    intro hall
    have he : pathUnder p e.1 = false := hall e (by simp)
    have hrest : ∀ e ∈ rest, pathUnder p e.1 = false := by
      intro x hx
      exact hall x (by simp [hx])
    simp only [fsRemoveAll, List.filter_cons, he] at *
    simp [ih hrest, fsRemoveAll]

/-- C1: the claim states the sanitizer accepts a path iff it is
non-empty, equal to its canonical form, and does not begin with a
separator, rejecting "", "/abs", "a/../b" and "../x".  The code has no
leading-separator check and Go Clean keeps a leading "..", so the server
ACCEPTS "../x" (a traversal escape of the root) and "/abs", while
behaving as claimed on the other four inputs. -/
theorem c1_sanitizer_accepts_dotdot_and_absolute :
    validateRequest ⟨requestCreate, "../x", []⟩ = none ∧
    validateRequest ⟨requestCreate, "/abs", []⟩ = none ∧
    validateRequest ⟨requestCreate, "", []⟩ = some "Missing request path" ∧
    validateRequest ⟨requestCreate, "a/../b", []⟩ =
      some ("Erroneous path value: " ++ "a/../b") ∧
    validateRequest ⟨requestCreate, "a/b/c", []⟩ = none ∧
    validateRequest ⟨requestCreate, "file.txt", []⟩ = none := by
  decide

/-- C2: applying MakeDirectory d, PutFile d/f X, Remove d in order to an
empty destination leaves neither d nor d/f present; moving the Remove
before the PutFile leaves d absent and the PutFile is answered with an
Error response (parent missing) while the first two succeed. -/
theorem c2_apply_ordering_invariant (X : List Nat) :
    (fsLookup (applyAll [] [⟨requestMkdir, "d", []⟩, ⟨requestCreate, "d/f", X⟩,
        ⟨requestRemove, "d", []⟩]).1 ["d"] = none ∧
     fsLookup (applyAll [] [⟨requestMkdir, "d", []⟩, ⟨requestCreate, "d/f", X⟩,
        ⟨requestRemove, "d", []⟩]).1 ["d", "f"] = none) ∧
    (fsLookup (applyAll [] [⟨requestMkdir, "d", []⟩, ⟨requestRemove, "d", []⟩,
        ⟨requestCreate, "d/f", X⟩]).1 ["d"] = none ∧
     (applyAll [] [⟨requestMkdir, "d", []⟩, ⟨requestRemove, "d", []⟩,
        ⟨requestCreate, "d/f", X⟩]).2.map Response.type =
       [responseOk, responseOk, responseErr]) :=
  ⟨⟨rfl, rfl⟩, ⟨rfl, rfl⟩⟩

/-- C3: the claim states a transport failure mid-flush is reported and
never treated as success.  The code discards the error return of the RPC
call, leaving the response at its zero value (status Ok), so a flush
whose every call fails in transit — no response ever received — still
returns success. -/
theorem c3_midflush_transport_failure_treated_as_success :
    sendRequests ⟨true, fun _ => none⟩
      [⟨requestCreate, "f", [1]⟩, ⟨requestCreate, "g", [2]⟩] = Except.ok () :=
  rfl

/-- C4: the claim states the client exits non-zero on invalid arguments.
The client source calls os.Exit(0) in that branch (the server's parallel
check uses exit status 1), so the client exits with status zero for each
kind of invalid argument. -/
theorem c4_client_invalid_args_exit_status_zero :
    clientArgsExit "" "localhost" 12345 = some 0 ∧
    clientArgsExit "/tmp/dir" "" 12345 = some 0 ∧
    clientArgsExit "/tmp/dir" "localhost" 70000 = some 0 ∧
    clientArgsExit "/tmp/dir" "localhost" 0 = some 0 ∧
    serverArgsExit "" "localhost" 12345 = some 1 := by
  decide

/-- C5: a walk emitting 250 requests is delivered in exactly the flushes
of sizes 100, 100 and 50, in emission order (their concatenation is the
emitted sequence), the last partial batch included. -/
theorem c5_sync_flush_sizes_250 (reqs : List Request) (h : reqs.length = 250) :
    (syncBatches reqs).map List.length = [100, 100, 50] ∧
    (syncBatches reqs).flatten = reqs := by
  constructor
  · rw [syncBatches, syncBatchesAux_map_length, List.length_nil, h]
    decide
  · rw [syncBatches, syncBatchesAux_flatten, List.nil_append]

/-- Witness for C5 at a concrete source tree of 250 files. -/
theorem c5_sync_flush_sizes_250_witness :
    (List.replicate 250 (⟨requestCreate, "f", [0]⟩ : Request)).length = 250 ∧
    ((syncBatches (List.replicate 250 (⟨requestCreate, "f", [0]⟩ : Request))).map
        List.length = [100, 100, 50] ∧
     (syncBatches (List.replicate 250 (⟨requestCreate, "f", [0]⟩ : Request))).flatten =
       List.replicate 250 (⟨requestCreate, "f", [0]⟩ : Request)) :=
  ⟨List.length_replicate 250 _, c5_sync_flush_sizes_250 _ (List.length_replicate 250 _)⟩

/-- C6: a request whose path fails validation is answered with an Error
response carrying the validator's message, and the destination tree is
returned unchanged. -/
theorem c6_invalid_path_error_no_mutation (fs : Fs) (req : Request) (msg : String)
    (h : validateRequest req = some msg) :
    ApplyRequest fs req = (fs, ⟨responseErr, msg⟩) := by
  simp [ApplyRequest, h]

/-- Witness for C6 at the path a/../b, which the sanitizer rejects. -/
theorem c6_invalid_path_error_no_mutation_witness :
    validateRequest ⟨requestCreate, "a/../b", [7]⟩ =
      some ("Erroneous path value: " ++ "a/../b") ∧
    ApplyRequest [(["x"], Node.dir)] ⟨requestCreate, "a/../b", [7]⟩ =
      ([(["x"], Node.dir)], ⟨responseErr, "Erroneous path value: " ++ "a/../b"⟩) :=
  ⟨by decide, c6_invalid_path_error_no_mutation [(["x"], Node.dir)] _ _ (by decide)⟩

/-- C7: a Remove request whose path passes validation always succeeds
with Ok; afterwards nothing remains at or below the removed path
(recursive removal of a file or a directory with contents), and when
nothing was there to begin with the tree is unchanged (removal of a
nonexistent path is a successful no-op). -/
theorem c7_remove_recursive_and_idempotent (fs : Fs) (path : String) (data : List Nat)
    (h : validateRequest ⟨requestRemove, path, data⟩ = none) :
    (ApplyRequest fs ⟨requestRemove, path, data⟩).2 = ⟨responseOk, ""⟩ ∧
    (∀ q : FsPath, pathUnder (splitSegs path) q = true →
      fsLookup (ApplyRequest fs ⟨requestRemove, path, data⟩).1 q = none) ∧
    ((∀ e ∈ fs, pathUnder (splitSegs path) e.1 = false) →
      (ApplyRequest fs ⟨requestRemove, path, data⟩).1 = fs) := by
  have happ : ApplyRequest fs ⟨requestRemove, path, data⟩ =
      (fsRemoveAll fs (splitSegs path), ⟨responseOk, ""⟩) := by
    unfold ApplyRequest
    rw [h]
    simp [requestMkdir, requestCreate, requestRemove]
  refine ⟨by rw [happ], ?_, ?_⟩
  · intro q hq
    rw [happ]
    exact fsLookup_fsRemoveAll_under _ q hq fs
  · intro hall
    rw [happ]
    exact fsRemoveAll_noop _ fs hall

/-- Witness for C7: removing the nonexistent path "nonexistent" from a
tree holding one unrelated file. -/
theorem c7_remove_recursive_and_idempotent_witness :
    validateRequest ⟨requestRemove, "nonexistent", []⟩ = none ∧
    ((ApplyRequest [(["a"], Node.file [1])] ⟨requestRemove, "nonexistent", []⟩).2 =
        ⟨responseOk, ""⟩ ∧
     (∀ q : FsPath, pathUnder (splitSegs "nonexistent") q = true →
       fsLookup (ApplyRequest [(["a"], Node.file [1])]
         ⟨requestRemove, "nonexistent", []⟩).1 q = none) ∧
     ((∀ e ∈ [((["a"] : FsPath), Node.file [1])],
         pathUnder (splitSegs "nonexistent") e.1 = false) →
       (ApplyRequest [(["a"], Node.file [1])]
         ⟨requestRemove, "nonexistent", []⟩).1 = [(["a"], Node.file [1])])) :=
  ⟨by decide, c7_remove_recursive_and_idempotent [(["a"], Node.file [1])] "nonexistent" []
    (by decide)⟩

/-- C9: a request with a valid path but a kind other than MakeDirectory,
PutFile or Remove is answered with an Error response whose message names
the unhandled request; the tree is unchanged, and (ApplyRequest being a
total function into a pair) the server process is not aborted. -/
theorem c9_unhandled_request_kind (fs : Fs) (req : Request)
    (hv : validateRequest req = none)
    (h0 : req.type ≠ requestMkdir) (h1 : req.type ≠ requestCreate)
    (h2 : req.type ≠ requestRemove) :
    ApplyRequest fs req = (fs, ⟨responseErr, "Unhandled request: " ++ reqString req⟩) := by
  simp [ApplyRequest, hv, h0, h1, h2]

/-- Witness for C9 at the unknown kind tag 3. -/
theorem c9_unhandled_request_kind_witness :
    validateRequest ⟨3, "x", []⟩ = none ∧
    (3 : Nat) ≠ requestMkdir ∧ (3 : Nat) ≠ requestCreate ∧ (3 : Nat) ≠ requestRemove ∧
    ApplyRequest [] ⟨3, "x", []⟩ =
      ([], ⟨responseErr, "Unhandled request: " ++ reqString ⟨3, "x", []⟩⟩) :=
  ⟨by decide, by decide, by decide, by decide,
    c9_unhandled_request_kind [] ⟨3, "x", []⟩ (by decide) (by decide) (by decide) (by decide)⟩

/-- C10: sending an empty batch returns success immediately, for every
transport — in particular for one whose connection attempt would fail,
so no connection is opened. -/
theorem c10_empty_batch_success_without_connection (t : Transport) :
    sendRequests t [] = Except.ok () :=
  rfl

/-- C8: when translating a file-creation or file-write event and the
content read fails, event handling returns the error (no request is
produced for the event), and the watcher loop terminates the whole
monitoring session with the wrapped error, whatever events were still
pending. -/
theorem c8_read_failure_terminates_monitoring
    (d : EventDeps) (t : Transport) (ev : Event) (evs : List Event)
    (reqs : List Request) (rp e : String)
    (hrel : d.rel ev.name = Except.ok rp)
    (hread : d.readFile ev.name = Except.error e)
    (hcase : (hasOp ev fsnotifyCreate = true ∧ d.isDirectory ev.name = false) ∨
             (hasOp ev fsnotifyCreate = false ∧ hasOp ev fsnotifyRemove = false ∧
              hasOp ev fsnotifyRename = false ∧ hasOp ev fsnotifyWrite = true)) :
    handleEvent d ev = Except.error e ∧
    watcherLoop d t (ev :: evs) reqs =
      Except.error ("Handling file event failed: " ++ e) := by
  have hhe : handleEvent d ev = Except.error e := by
    rcases hcase with ⟨h1, h2⟩ | ⟨h1, h2, h3, h4⟩
    · simp [handleEvent, hrel, h1, h2, newCreateRequest, hread]
    · simp [handleEvent, hrel, h1, h2, h3, h4, newCreateRequest, hread]
  refine ⟨hhe, ?_⟩
  simp [watcherLoop, hhe]

/-- Witness for C8: a Write event on a file that has vanished before it
could be read. -/
theorem c8_read_failure_terminates_monitoring_witness :
    (fun s => Except.ok s : String → Except String String) "f" = Except.ok "f" ∧
    (fun _ => Except.error "read failed" : String → Except String (List Nat)) "f" =
      Except.error "read failed" ∧
    (hasOp ⟨2, "f"⟩ fsnotifyCreate = false ∧ hasOp ⟨2, "f"⟩ fsnotifyRemove = false ∧
     hasOp ⟨2, "f"⟩ fsnotifyRename = false ∧ hasOp ⟨2, "f"⟩ fsnotifyWrite = true) ∧
    (handleEvent ⟨fun s => Except.ok s, fun _ => false, fun _ => Except.error "read failed",
        fun _ => Except.ok ()⟩ ⟨2, "f"⟩ = Except.error "read failed" ∧
     watcherLoop ⟨fun s => Except.ok s, fun _ => false, fun _ => Except.error "read failed",
        fun _ => Except.ok ()⟩ ⟨true, fun _ => none⟩ [⟨2, "f"⟩, ⟨4, "g"⟩] [] =
       Except.error ("Handling file event failed: " ++ "read failed")) :=
  ⟨rfl, rfl, ⟨by decide, by decide, by decide, by decide⟩,
    c8_read_failure_terminates_monitoring
      ⟨fun s => Except.ok s, fun _ => false, fun _ => Except.error "read failed",
        fun _ => Except.ok ()⟩ ⟨true, fun _ => none⟩ ⟨2, "f"⟩ [⟨4, "g"⟩] [] "f" "read failed"
      rfl rfl (Or.inr ⟨by decide, by decide, by decide, by decide⟩)⟩
